import Mathlib

/-!
Shallow embedding of the qiskit-metal component library's geometry pipeline
(`FluxoniumPocket`, `Frame`, `Markers`, `JunctionArray`) and proofs about it.

Shapes are modelled as subsets of the real plane.  The shapely primitives used
by the components (`draw.rectangle`, `draw.box`, `Point(...).buffer`,
`draw.LineString`, `draw.union`, `draw.subtract`, `draw.rotate`,
`draw.translate`) are modelled as the corresponding point sets and set
operations.  String-with-unit options are modelled by their parsed numeric
values in millimetres (the parser's base unit), exactly as the `self.p`
namespace exposes them to `make`.
-/

noncomputable section

/-- Point of the plane, as used for shapely coordinates and pin endpoints. -/
abbrev Pt := ℝ × ℝ

/-- Model of `draw.rectangle w h cx cy`: the closed axis-aligned rectangle of
width `w` and height `h` centred at `(cx, cy)`. -/
def rectangleSet (w h cx cy : ℝ) : Set Pt :=
  fun q => |q.1 - cx| ≤ w / 2 ∧ |q.2 - cy| ≤ h / 2

/-- Model of `draw.box x1 y1 x2 y2` (shapely `box`): the closed axis-aligned
rectangle spanned by the two corner coordinates, in either order. -/
def boxSet (x1 y1 x2 y2 : ℝ) : Set Pt :=
  fun q => min x1 x2 ≤ q.1 ∧ q.1 ≤ max x1 x2 ∧ min y1 y2 ≤ q.2 ∧ q.2 ≤ max y1 y2

/-- Model of `draw.Point(c).buffer(r)`: the closed disc of radius `r` at `c`. -/
def discSet (cx cy r : ℝ) : Set Pt :=
  fun q => (q.1 - cx) ^ 2 + (q.2 - cy) ^ 2 ≤ r ^ 2

/-- Closed segment between two points (one piece of a shapely `LineString`). -/
def segSet (a b : Pt) : Set Pt :=
  fun q => ∃ t : ℝ, 0 ≤ t ∧ t ≤ 1 ∧
    q.1 = a.1 + t * (b.1 - a.1) ∧ q.2 = a.2 + t * (b.2 - a.2)

/-- Model of `draw.LineString pts`: the union of the consecutive segments. -/
def lineStringSet : List Pt → Set Pt
  | [] => ∅
  | [_] => ∅
  | a :: b :: rest => segSet a b ∪ lineStringSet (b :: rest)

/-- Model of `draw.subtract a b` (shapely `difference`). -/
def shSubtract (a b : Set Pt) : Set Pt := a \ b

/-- Rotation of a point about the origin by `θ` degrees counterclockwise,
as shapely's `affinity.rotate` computes it (exact `π/180` conversion). -/
def rotPtDeg (θ : ℝ) (q : Pt) : Pt :=
  (q.1 * Real.cos (θ * Real.pi / 180) - q.2 * Real.sin (θ * Real.pi / 180),
   q.1 * Real.sin (θ * Real.pi / 180) + q.2 * Real.cos (θ * Real.pi / 180))

/-- Model of `draw.rotate S θ origin=(0,0)` on a single shape. -/
def shRotate (θ : ℝ) (s : Set Pt) : Set Pt := Set.image (rotPtDeg θ) s

/-- Model of `draw.translate S dx dy` on a single shape. -/
def shTranslate (dx dy : ℝ) (s : Set Pt) : Set Pt :=
  Set.image (fun q => (q.1 + dx, q.2 + dy)) s

/-- Geometry-table category tag of `add_qgeometry`. -/
inductive Cat where
  | poly
  | path
  | junction
deriving DecidableEq

/-- One geometry-table entry, as handed to `add_qgeometry`: category, name
(the key of the dict argument), shape, and the keyword attributes used by the
components in this repository.  `hfss_inductance` keeps the numeric value of
the inductance string the code attaches. -/
structure Entry where
  category : Cat
  name : String
  shape : Set Pt
  subtract : Bool := false
  width : Option ℝ := none
  hfss_inductance : Option ℝ := none
  gds_cell_name : Option String := none
  layer : Option ℤ := none

/-- One registered pin, as handed to `add_pin`. -/
structure QPin where
  name : String
  pt1 : Pt
  pt2 : Pt
  width : ℝ
  input_as_norm : Bool

namespace FluxoniumPocket

/-- Options of `FluxoniumPocket.flux_bias_line_options`. -/
structure FbOptions where
  make_fbl : Bool
  fbl_sep : ℝ
  fbl_height : ℝ
  cpw_width : ℝ
  cpw_gap : ℝ

/-- Options of `FluxoniumPocket.charge_line_options`. -/
structure ClOptions where
  make_cl : Bool
  cl_sep : ℝ
  cpw_width : ℝ
  cpw_gap : ℝ

/-- Options of `FluxoniumPocket.readout_line_options`. -/
structure RoOptions where
  make_rol : Bool
  pad_sep : ℝ
  pad_width : ℝ
  pad_height : ℝ
  pad_gap : ℝ
  cpw_width : ℝ
  cpw_gap : ℝ

/-- Parsed options of `FluxoniumPocket` (the numeric view `self.p`), lengths
in mm; `orientation_deg` is the source's `orientation` option in degrees;
`l_inductance` and `l_ind_per_square` are the numeric parts (nH) that
`make_pocket` extracts from the unit strings; `L_j` likewise. -/
structure Options where
  pos_x : ℝ
  pos_y : ℝ
  width : ℝ
  height : ℝ
  pad_gap : ℝ
  inductor_width : ℝ
  pad_width : ℝ
  pad_height : ℝ
  pad_radius : ℝ
  l_width : ℝ
  l_arm_length : ℝ
  l_inductance : ℝ
  l_ind_per_square : ℝ
  l_fillet : ℝ
  L_j : ℝ
  pocket_width : ℝ
  pocket_height : ℝ
  orientation_deg : ℝ
  flux_bias_line_options : FbOptions
  charge_line_options : ClOptions
  readout_line_options : RoOptions

/-- The class's `default_options`, parsed into mm / nH / degrees. -/
def defaultOptions : Options where
  pos_x := 0
  pos_y := 0
  width := 1.2
  height := 1.2
  pad_gap := 0.03
  inductor_width := 0.01
  pad_width := 0.015
  pad_height := 0.2
  pad_radius := 0.05
  l_width := 0.001
  l_arm_length := 0.05
  l_inductance := 200
  l_ind_per_square := 2
  l_fillet := 0.005
  L_j := 16.35
  pocket_width := 0.8
  pocket_height := 0.8
  orientation_deg := 0
  flux_bias_line_options :=
    { make_fbl := false, fbl_sep := 0.05, fbl_height := 0.05,
      cpw_width := 0.01, cpw_gap := 0.01 }
  charge_line_options :=
    { make_cl := false, cl_sep := 0.015, cpw_width := 0.01, cpw_gap := 0.01 }
  readout_line_options :=
    { make_rol := false, pad_sep := 0.02, pad_width := 0.15,
      pad_height := 0.05, pad_gap := 0.01, cpw_width := 0.01, cpw_gap := 0.01 }

/-- `L_tot = l_inductance * p.l_width / ind_per_square` of `make_pocket`. -/
def L_tot (o : Options) : ℝ := o.l_inductance * o.l_width / o.l_ind_per_square

/-- The rigid transform `make_pocket` (and the other sub-builders) apply to a
shape: rotate by `orientation` about `(0,0)`, then translate by
`(pos_x, pos_y)`. -/
def pocketTransform (o : Options) (s : Set Pt) : Set Pt :=
  shTranslate o.pos_x o.pos_y (shRotate o.orientation_deg s)

/-- `rect_jj = draw.LineString [(0, -pad_gap/2), (0, +pad_gap/2)]`. -/
def rect_jj (o : Options) : Set Pt :=
  lineStringSet [(0, -o.pad_gap / 2), (0, o.pad_gap / 2)]

/-- `pad = union(pad_rect, pad_circle)` of `make_pocket`. -/
def pad (o : Options) : Set Pt :=
  rectangleSet o.pad_width (o.pad_height - o.pad_radius) 0 0 ∪
    discSet 0 ((o.pad_height - o.pad_radius) / 2) o.pad_radius

/-- `pad_top = translate(pad, 0, +(pad_height + pad_gap - pad_radius)/2)`. -/
def pad_top (o : Options) : Set Pt :=
  shTranslate 0 ((o.pad_height + o.pad_gap - o.pad_radius) / 2) (pad o)

/-- `pad_bot = rotate(pad_top, 180, origin=(0,0))`. -/
def pad_bot (o : Options) : Set Pt := shRotate 180 (pad_top o)

/-- `poly_seg` of `make_pocket`: quarter-circle fillet obtained from the
annulus by subtracting the two masking rectangles. -/
def poly_seg (o : Options) : Set Pt :=
  shSubtract
    (shSubtract
      (shSubtract (discSet 0 0 (o.l_fillet + o.l_width / 2))
        (discSet 0 0 (o.l_fillet - o.l_width / 2)))
      (rectangleSet (o.l_fillet + o.l_width / 2) (2 * o.l_fillet + o.l_width)
        (-(o.l_fillet + o.l_width / 2) / 2) 0))
    (rectangleSet (2 * o.l_fillet + o.l_width) (o.l_fillet + o.l_width / 2)
      0 (-(o.l_fillet + o.l_width / 2) / 2))

/-- `mount_top` of `make_pocket`. -/
def mount_top (o : Options) : Set Pt :=
  shTranslate ((o.pad_width + o.l_arm_length) / 2) (L_tot o / 2 + o.l_fillet)
    (rectangleSet o.l_arm_length o.l_width 0 0)

/-- `mount_bot` of `make_pocket`. -/
def mount_bot (o : Options) : Set Pt :=
  shTranslate ((o.pad_width + o.l_arm_length) / 2) (-(L_tot o) / 2 - o.l_fillet)
    (rectangleSet o.l_arm_length o.l_width 0 0)

/-- `seg_top = translate(poly_seg, l_arm_length + pad_width/2, L_tot/2)`. -/
def seg_top (o : Options) : Set Pt :=
  shTranslate (o.l_arm_length + o.pad_width / 2) (L_tot o / 2) (poly_seg o)

/-- `seg_bot = translate(rotate(poly_seg, -90), l_arm_length + pad_width/2, -L_tot/2)`. -/
def seg_bot (o : Options) : Set Pt :=
  shTranslate (o.l_arm_length + o.pad_width / 2) (-(L_tot o) / 2)
    (shRotate (-90) (poly_seg o))

/-- `poly_wire_top = union([mount_top, seg_top])`. -/
def poly_wire_top (o : Options) : Set Pt := mount_top o ∪ seg_top o

/-- `poly_wire_bot = union([seg_bot, mount_bot])`. -/
def poly_wire_bot (o : Options) : Set Pt := seg_bot o ∪ mount_bot o

/-- Endpoint `c` of the inductor line string of `make_pocket`. -/
def inductor_c (o : Options) : Pt :=
  (o.pad_width / 2 + o.l_arm_length + o.l_fillet, L_tot o / 2)

/-- Endpoint `d` of the inductor line string of `make_pocket`. -/
def inductor_d (o : Options) : Pt :=
  (o.pad_width / 2 + o.l_arm_length + o.l_fillet, -(L_tot o) / 2)

/-- `inductor = draw.LineString([c, d])`. -/
def inductor (o : Options) : Set Pt :=
  lineStringSet [inductor_c o, inductor_d o]

/-- `rect_pk = draw.rectangle(pocket_width, pocket_height)`. -/
def rect_pk (o : Options) : Set Pt :=
  rectangleSet o.pocket_width o.pocket_height 0 0

/-- Model of `FluxoniumPocket.make_pocket`, producing the geometry-table rows
in registration order.  The source builds
`polys = [rect_jj, pad_top, pad_bot, rect_pk, poly_wire_top, poly_wire_top, inductor]`,
rotates and translates that list, and destructures it back into the same
variable names: `poly_wire_top` appears twice in the list and `poly_wire_bot`
not at all, so the registered `poly_wire_bot` is the local, untransformed
shape while every other registered shape is transformed. -/
def make_pocket (o : Options) : List Entry :=
  [{ category := Cat.poly, name := "pad_top",
     shape := pocketTransform o (pad_top o) },
   { category := Cat.poly, name := "pad_bot",
     shape := pocketTransform o (pad_bot o) },
   { category := Cat.poly, name := "poly_wire_top",
     shape := pocketTransform o (poly_wire_top o) },
   { category := Cat.poly, name := "poly_wire_bot",
     shape := poly_wire_bot o },
   { category := Cat.poly, name := "rect_pk",
     shape := pocketTransform o (rect_pk o), subtract := true },
   { category := Cat.junction, name := "inductor",
     shape := pocketTransform o (inductor o), width := some o.l_width,
     hfss_inductance := some o.l_inductance },
   { category := Cat.junction, name := "rect_jj",
     shape := pocketTransform o (rect_jj o), width := some o.inductor_width,
     hfss_inductance := some o.L_j }]

/-- Model of `FluxoniumPocket.qpin_rotate_translate`: the source converts
degrees with the literal constant `3.14159`, not with `math.pi`. -/
def qpin_rotate_translate (o : Options) (x : Pt) : Pt :=
  (x.1 * Real.cos (o.orientation_deg * 3.14159 / 180) -
      x.2 * Real.sin (o.orientation_deg * 3.14159 / 180) + o.pos_x,
   x.1 * Real.sin (o.orientation_deg * 3.14159 / 180) +
      x.2 * Real.cos (o.orientation_deg * 3.14159 / 180) + o.pos_y)

/-- Point `d` of `make_flux_bias_line`. -/
def fbl_d (o : Options) : Pt :=
  (o.pocket_width / 2, -o.flux_bias_line_options.fbl_height / 2)

/-- Point `e` of `make_flux_bias_line`. -/
def fbl_e (o : Options) : Pt :=
  (o.width / 2, -o.flux_bias_line_options.fbl_height / 2)

/-- The `fbl` line string of `make_flux_bias_line` (points `a b c d e`). -/
def fbl_line (o : Options) : Set Pt :=
  lineStringSet
    [(o.pocket_width / 2, o.flux_bias_line_options.fbl_height / 2),
     (o.pad_width / 2 + o.l_arm_length + o.flux_bias_line_options.fbl_sep +
        (o.l_width + o.flux_bias_line_options.cpw_width) / 2,
      0.5 * o.flux_bias_line_options.fbl_height),
     (o.pad_width / 2 + o.l_arm_length + o.flux_bias_line_options.fbl_sep +
        (o.l_width + o.flux_bias_line_options.cpw_width) / 2,
      0.5 * -o.flux_bias_line_options.fbl_height),
     fbl_d o, fbl_e o]

/-- The `fbl_gap` line string of `make_flux_bias_line` (points `d e`). -/
def fbl_gap (o : Options) : Set Pt := lineStringSet [fbl_d o, fbl_e o]

/-- Geometry rows registered by `make_flux_bias_line`: both the trace and its
gap cut are registered in the `path` table under the name `path`. -/
def fblEntries (o : Options) : List Entry :=
  [{ category := Cat.path, name := "path",
     shape := pocketTransform o (fbl_line o), subtract := false,
     width := some o.flux_bias_line_options.cpw_width, layer := some 1 },
   { category := Cat.path, name := "path",
     shape := pocketTransform o (fbl_gap o), subtract := true,
     width := some (o.flux_bias_line_options.cpw_width +
        2 * o.flux_bias_line_options.cpw_gap), layer := some 1 }]

/-- The pin registered by `make_flux_bias_line`. -/
def fblPin (o : Options) : QPin where
  name := "Flux bias line"
  pt1 := qpin_rotate_translate o (fbl_d o)
  pt2 := qpin_rotate_translate o (fbl_e o)
  width := o.flux_bias_line_options.cpw_width
  input_as_norm := true

/-- The `cl` box of `make_charge_line` (`a = height/2`, `b = pocket_height/2 + cl_sep`). -/
def cl_shape (o : Options) : Set Pt :=
  boxSet (-o.charge_line_options.cpw_width / 2) (o.height / 2)
    (o.charge_line_options.cpw_width / 2)
    (o.pocket_height / 2 + o.charge_line_options.cl_sep)

/-- The `cl_gap` box of `make_charge_line`. -/
def cl_gap_shape (o : Options) : Set Pt :=
  boxSet (-o.charge_line_options.cpw_gap / 2 - o.charge_line_options.cpw_width / 2)
    (o.height / 2)
    (o.charge_line_options.cpw_gap / 2 + o.charge_line_options.cpw_width / 2)
    (o.pocket_height / 2 + o.charge_line_options.cl_sep - o.charge_line_options.cpw_gap)

/-- Geometry rows registered by `make_charge_line`. -/
def clEntries (o : Options) : List Entry :=
  [{ category := Cat.poly, name := "cl", shape := pocketTransform o (cl_shape o) },
   { category := Cat.poly, name := "cl_gap",
     shape := pocketTransform o (cl_gap_shape o), subtract := true }]

/-- The pin registered by `make_charge_line`. -/
def clPin (o : Options) : QPin where
  name := "Charge line"
  pt1 := qpin_rotate_translate o
    (0, o.pocket_height / 2 + o.charge_line_options.cl_sep)
  pt2 := qpin_rotate_translate o (0, o.height / 2)
  width := o.charge_line_options.cpw_width
  input_as_norm := true

/-- The readout pad of `make_readout_line`, already translated downward. -/
def ro_pad (o : Options) : Set Pt :=
  shTranslate 0
    (-(o.readout_line_options.pad_height + o.pocket_height) / 2 -
      o.readout_line_options.pad_sep - o.readout_line_options.pad_gap)
    (rectangleSet o.readout_line_options.pad_width
      o.readout_line_options.pad_height 0 0)

/-- The readout cutout pad of `make_readout_line`. -/
def ro_cutout_pad (o : Options) : Set Pt :=
  shTranslate 0
    (-(o.readout_line_options.pad_height + o.pocket_height) / 2 -
      o.readout_line_options.pad_sep - o.readout_line_options.pad_gap)
    (rectangleSet (o.readout_line_options.pad_width + 2 * o.readout_line_options.pad_gap)
      (o.readout_line_options.pad_height + 2 * o.readout_line_options.pad_gap) 0 0)

/-- Point `a` of `make_readout_line`. -/
def ro_a (o : Options) : Pt := (0, -o.height / 2)

/-- Point `b` of `make_readout_line`. -/
def ro_b (o : Options) : Pt :=
  (0, -o.readout_line_options.pad_height - o.pocket_height / 2 -
    o.readout_line_options.pad_sep - o.readout_line_options.pad_gap)

/-- The readout coplanar waveguide line string. -/
def cpw_readout (o : Options) : Set Pt := lineStringSet [ro_a o, ro_b o]

/-- Geometry rows registered by `make_readout_line`: as in the flux bias line,
the trace and its gap cut are both registered under the name `path`. -/
def rolEntries (o : Options) : List Entry :=
  [{ category := Cat.poly, name := "pad", shape := pocketTransform o (ro_pad o) },
   { category := Cat.poly, name := "cutout_pad",
     shape := pocketTransform o (ro_cutout_pad o), subtract := true },
   { category := Cat.path, name := "path",
     shape := pocketTransform o (cpw_readout o), subtract := false,
     width := some o.readout_line_options.cpw_width, layer := some 1 },
   { category := Cat.path, name := "path",
     shape := pocketTransform o (cpw_readout o), subtract := true,
     width := some (o.readout_line_options.cpw_width +
        2 * o.readout_line_options.cpw_gap), layer := some 1 }]

/-- The pin registered by `make_readout_line`. -/
def rolPin (o : Options) : QPin where
  name := "Readout line"
  pt1 := qpin_rotate_translate o (ro_b o)
  pt2 := qpin_rotate_translate o (ro_a o)
  width := o.readout_line_options.cpw_width
  input_as_norm := true

/-- Model of `FluxoniumPocket.make`: the pocket is always built; the three
optional sub-features are built when their boolean toggle is set.  Returns
the geometry rows and the pins, in registration order. -/
def make (o : Options) : List Entry × List QPin :=
  (make_pocket o ++
    (if o.flux_bias_line_options.make_fbl then fblEntries o else []) ++
    (if o.charge_line_options.make_cl then clEntries o else []) ++
    (if o.readout_line_options.make_rol then rolEntries o else []),
   (if o.flux_bias_line_options.make_fbl then [fblPin o] else []) ++
    (if o.charge_line_options.make_cl then [clPin o] else []) ++
    (if o.readout_line_options.make_rol then [rolPin o] else []))

end FluxoniumPocket

namespace Frame

/-- Parsed options of `Frame` (its own defaults plus the base component's
`pos_x`, `pos_y`, `orientation`, `layer`). -/
structure Options where
  frame_w : ℝ
  frame_h : ℝ
  f_width : ℝ
  pos_x : ℝ
  pos_y : ℝ
  orientation_deg : ℝ
  layer : ℤ

/-- The claim's build options: `frame_w='9mm', frame_h='9mm', f_width='70um'`
with the base defaults. -/
def claimOptions : Options where
  frame_w := 9
  frame_h := 9
  f_width := 0.07
  pos_x := 0
  pos_y := 0
  orientation_deg := 0
  layer := 1

/-- `line_top = draw.rectangle(frame_w, f_width, 0, 4.5)`: the vertical
centre coordinate is the literal `4.5`, not derived from `frame_h`. -/
def line_top (o : Options) : Set Pt := rectangleSet o.frame_w o.f_width 0 4.5

/-- `line_left = draw.rectangle(f_width, frame_h, 4.5, 0)`. -/
def line_left (o : Options) : Set Pt := rectangleSet o.f_width o.frame_h 4.5 0

/-- `line_right = draw.rectangle(f_width, frame_h, -4.5, 0)`. -/
def line_right (o : Options) : Set Pt := rectangleSet o.f_width o.frame_h (-4.5) 0

/-- `line_bottom = draw.rectangle(frame_w, f_width, 0, -4.5)`. -/
def line_bottom (o : Options) : Set Pt := rectangleSet o.frame_w o.f_width 0 (-4.5)

/-- `frame = draw.union(line_top, line_left, line_right, line_bottom)`. -/
def frame_shape (o : Options) : Set Pt :=
  line_top o ∪ line_left o ∪ line_right o ∪ line_bottom o

/-- Model of `Frame.make`: one `poly` row named `frame`, rotated then
translated by the component placement. -/
def make (o : Options) : List Entry :=
  [{ category := Cat.poly, name := "frame",
     shape := shTranslate o.pos_x o.pos_y (shRotate o.orientation_deg (frame_shape o)),
     layer := some o.layer }]

end Frame

namespace Markers

/-- Parsed options of `Markers` (its own defaults plus the base component's
`orientation` and `layer`). -/
structure Options where
  pos_x : ℝ
  pos_y : ℝ
  marker_sep : ℝ
  marker_w : ℝ
  marker_h : ℝ
  markers_gap : ℝ
  orientation_deg : ℝ
  layer : ℤ

/-- The class's `default_options`, parsed into mm. -/
def defaultOptions : Options where
  pos_x := 0
  pos_y := 0
  marker_sep := 0.04
  marker_w := 0.02
  marker_h := 0.02
  markers_gap := 0.2
  orientation_deg := 0
  layer := 1

/-- `marker_1 = draw.rectangle(marker_w, marker_h, pos_x/2 + marker_sep, pos_y/2 + marker_sep)`. -/
def marker_1 (o : Options) : Set Pt :=
  rectangleSet o.marker_w o.marker_h (o.pos_x / 2 + o.marker_sep) (o.pos_y / 2 + o.marker_sep)

/-- `marker_2` (centre `(pos_x/2 - marker_sep, pos_y/2 + marker_sep)`). -/
def marker_2 (o : Options) : Set Pt :=
  rectangleSet o.marker_w o.marker_h (o.pos_x / 2 - o.marker_sep) (o.pos_y / 2 + o.marker_sep)

/-- `marker_3` (centre `(pos_x/2 + marker_sep, pos_y/2 - marker_sep)`). -/
def marker_3 (o : Options) : Set Pt :=
  rectangleSet o.marker_w o.marker_h (o.pos_x / 2 + o.marker_sep) (o.pos_y / 2 - o.marker_sep)

/-- `marker_4` (centre `(pos_x/2 - marker_sep, pos_y/2 - marker_sep)`). -/
def marker_4 (o : Options) : Set Pt :=
  rectangleSet o.marker_w o.marker_h (o.pos_x / 2 - o.marker_sep) (o.pos_y / 2 - o.marker_sep)

/-- `markers = draw.union(marker_1, marker_2, marker_3, marker_4)`. -/
def markers_shape (o : Options) : Set Pt :=
  marker_1 o ∪ marker_2 o ∪ marker_3 o ∪ marker_4 o

/-- `markers_pk = draw.rectangle(markers_gap, markers_gap, pos_x/2, pos_y/2)`. -/
def markers_pk_shape (o : Options) : Set Pt :=
  rectangleSet o.markers_gap o.markers_gap (o.pos_x / 2) (o.pos_y / 2)

/-- Model of `Markers.make`: the two shapes are rotated about the origin and
then translated by `(pos_x/2, pos_y/2)` (note the halving in the source),
and registered as the `markers` poly and the subtracted `markers_pk` poly. -/
def make (o : Options) : List Entry :=
  [{ category := Cat.poly, name := "markers",
     shape := shTranslate (o.pos_x / 2) (o.pos_y / 2)
       (shRotate o.orientation_deg (markers_shape o)),
     layer := some o.layer },
   { category := Cat.poly, name := "markers_pk",
     shape := shTranslate (o.pos_x / 2) (o.pos_y / 2)
       (shRotate o.orientation_deg (markers_pk_shape o)),
     subtract := true, layer := some o.layer }]

end Markers

namespace JunctionArray

/-- Parsed options of `JunctionArray.array_unit`; `n_junction` is the integer
the source obtains via `int(...)`. -/
structure ArrayUnit where
  array_pad_x : ℝ
  array_pad_y : ℝ
  array_gap_y : ℝ
  junction_thickness : ℝ
  n_junction : ℕ

/-- Parsed options of `JunctionArray` (plus base `pos_x`, `pos_y`,
`orientation`, `layer`). -/
structure Options where
  ground_gap_x : ℝ
  ground_gap_y : ℝ
  array_unit : ArrayUnit
  pos_x : ℝ
  pos_y : ℝ
  orientation_deg : ℝ
  layer : ℤ

/-- `jj_pad` after the global rotate/translate applied before the loop
(source lines 74-78): the per-cell vertical offsets are applied to this
already-transformed box afterwards. -/
def jjPadGlobal (o : Options) : Set Pt :=
  shTranslate o.pos_x o.pos_y
    (shRotate o.orientation_deg
      (boxSet (-o.array_unit.array_pad_x / 2) (-o.array_unit.array_pad_y / 2)
        (o.array_unit.array_pad_x / 2) (o.array_unit.array_pad_y / 2)))

/-- `rect_jj` before the loop: the unit line string translated up by
`array_pad_y / 2`. -/
def rectJJLocal (o : Options) : Set Pt :=
  shTranslate 0 (o.array_unit.array_pad_y / 2)
    (lineStringSet [(0, 0), (0, o.array_unit.array_gap_y)])

/-- `y_increment = array_pad_y + array_gap_y` of the loop. -/
def yIncrement (o : Options) : ℝ :=
  o.array_unit.array_pad_y + o.array_unit.array_gap_y

/-- The `jj_pad_{idx}` poly row of one loop iteration: the per-cell offset is
applied after the global transform. -/
def padEntry (o : Options) (idx : ℕ) (yoff : ℝ) : Entry where
  category := Cat.poly
  name := "jj_pad_" ++ toString idx
  shape := shTranslate 0 yoff (jjPadGlobal o)
  layer := some o.layer

/-- The `rect_jj_{idx}` junction row of one loop iteration: offset first,
then the global rotate/translate. -/
def juncEntry (o : Options) (idx : ℕ) (yoff : ℝ) : Entry where
  category := Cat.junction
  name := "rect_jj_" ++ toString idx
  shape := shTranslate o.pos_x o.pos_y
    (shRotate o.orientation_deg (shTranslate 0 yoff (rectJJLocal o)))
  width := some o.array_unit.junction_thickness
  gds_cell_name := some ("FakeJunction_0" ++ toString (idx + 1))

/-- The loop of `make_jj_array`: `count` iterations remaining, current index
`idx` and current `junc_yoff`; a junction row is added only when
`idx != n_junction`. -/
def jjEntriesFrom (o : Options) : ℕ → ℕ → ℝ → List Entry
  | 0, _, _ => []
  | count + 1, idx, yoff =>
      padEntry o idx yoff ::
        ((if idx ≠ o.array_unit.n_junction then [juncEntry o idx yoff] else []) ++
          jjEntriesFrom o count (idx + 1) (yoff + yIncrement o))

/-- Model of `make_jj_array`: the loop runs over `range(int(n_junction + 1))`
starting from `junc_yoff = 0`. -/
def make_jj_array (o : Options) : List Entry :=
  jjEntriesFrom o (o.array_unit.n_junction + 1) 0 0

/-- Model of `make_buffer_ground`: one subtracted `ground_etch` poly row. -/
def make_buffer_ground (o : Options) : List Entry :=
  [{ category := Cat.poly, name := "ground_etch",
     shape := shTranslate o.pos_x o.pos_y
       (shRotate o.orientation_deg
         (boxSet (-(o.array_unit.array_pad_x + 2 * o.ground_gap_x) / 2)
           (-o.array_unit.array_pad_y / 2 - o.ground_gap_y)
           ((o.array_unit.array_pad_x + 2 * o.ground_gap_x) / 2)
           (-o.array_unit.array_pad_y / 2 - o.ground_gap_y +
             ((o.array_unit.n_junction + 1 : ℕ) * o.array_unit.array_pad_y +
               (o.array_unit.n_junction : ℕ) * o.array_unit.array_gap_y +
               2 * o.ground_gap_y)))),
     subtract := true, layer := some o.layer }]

/-- Model of `JunctionArray.make`: the junction array then the ground buffer. -/
def make (o : Options) : List Entry :=
  make_jj_array o ++ make_buffer_ground o

end JunctionArray

/-- Membership in a modelled rectangle, by definition. -/
theorem mem_rectangleSet {w h cx cy : ℝ} {q : Pt} :
    q ∈ rectangleSet w h cx cy ↔ |q.1 - cx| ≤ w / 2 ∧ |q.2 - cy| ≤ h / 2 :=
  Iff.rfl

/-- Membership in a translated shape. -/
theorem mem_shTranslate {dx dy : ℝ} {s : Set Pt} {q : Pt} :
    q ∈ shTranslate dx dy s ↔ (q.1 - dx, q.2 - dy) ∈ s := by
  constructor
  · rintro ⟨r, hr, rfl⟩
    simpa using hr
  · intro h
    exact ⟨(q.1 - dx, q.2 - dy), h, by simp⟩

/-- Rotation by 0 degrees fixes every point. -/
theorem rotPtDeg_zero (q : Pt) : rotPtDeg 0 q = q := by
  simp [rotPtDeg]

/-- Rotation of a shape by 0 degrees is the identity. -/
theorem shRotate_zero (s : Set Pt) : shRotate 0 s = s := by
  have h : rotPtDeg 0 = id := funext rotPtDeg_zero
  rw [shRotate, h, Set.image_id]

/-- Translation by `(0, 0)` is the identity. -/
theorem shTranslate_zero (s : Set Pt) : shTranslate 0 0 s = s := by
  have h : (fun q : Pt => (q.1 + 0, q.2 + 0)) = id := by
    funext q
    simp
  rw [shTranslate, h, Set.image_id]

/-- Rotation about the origin preserves the squared distance to the origin. -/
theorem rotPtDeg_normSq (θ : ℝ) (q : Pt) :
    (rotPtDeg θ q).1 ^ 2 + (rotPtDeg θ q).2 ^ 2 = q.1 ^ 2 + q.2 ^ 2 := by
  have h := Real.sin_sq_add_cos_sq (θ * Real.pi / 180)
  simp only [rotPtDeg]
  linear_combination (q.1 ^ 2 + q.2 ^ 2) * h

/-- A rotated origin-centred disc stays inside that disc. -/
theorem shRotate_disc_subset (θ r : ℝ) :
    shRotate θ (discSet 0 0 r) ⊆ discSet 0 0 r := by
  rintro q ⟨p, hp, rfl⟩
  simp only [discSet, sub_zero, Set.mem_def] at hp ⊢
  rw [rotPtDeg_normSq]
  exact hp

/-- The fillet piece is contained in its outer disc. -/
theorem poly_seg_subset_disc (o : FluxoniumPocket.Options) :
    FluxoniumPocket.poly_seg o ⊆ discSet 0 0 (o.l_fillet + o.l_width / 2) :=
  fun _ hq => hq.1.1.1

/-- The transform of `make_pocket` at zero orientation and zero offset is the
identity. -/
theorem pocketTransform_id (o : FluxoniumPocket.Options)
    (h1 : o.orientation_deg = 0) (h2 : o.pos_x = 0) (h3 : o.pos_y = 0)
    (s : Set Pt) : FluxoniumPocket.pocketTransform o s = s := by
  rw [FluxoniumPocket.pocketTransform, h1, h2, h3, shRotate_zero, shTranslate_zero]

/-- Axis-aligned box with integer micrometre coordinates, for exact area
computations on the `Frame` geometry (1 mm = 1000 um). -/
structure ZBox where
  x1 : ℤ
  x2 : ℤ
  y1 : ℤ
  y2 : ℤ
deriving DecidableEq

/-- Insertion into a sorted list of integers. -/
def zInsert (a : ℤ) : List ℤ → List ℤ
  | [] => [a]
  | b :: l => if a ≤ b then a :: b :: l else b :: zInsert a l

/-- Insertion sort of a list of integers. -/
def zSort : List ℤ → List ℤ
  | [] => []
  | b :: l => zInsert b (zSort l)

/-- Exact area of a union of axis-aligned boxes, computed by decomposing the
plane along the grid of all box edges and summing the grid cells lying in at
least one box.  A grid cell spans consecutive edge coordinates, so it is
contained in a box exactly when its corner coordinates are inside the box's
bounds. -/
def zUnionArea (bs : List ZBox) : ℤ :=
  let xs := zSort (bs.flatMap fun b => [b.x1, b.x2]).dedup
  let ys := zSort (bs.flatMap fun b => [b.y1, b.y2]).dedup
  ((xs.zip xs.tail).flatMap fun xc => (ys.zip ys.tail).map fun yc =>
      if bs.any fun b =>
          decide (b.x1 ≤ xc.1) && decide (xc.2 ≤ b.x2) &&
            decide (b.y1 ≤ yc.1) && decide (yc.2 ≤ b.y2) then
        (xc.2 - xc.1) * (yc.2 - yc.1)
      else 0).sum

/-- The four border rectangles of `Frame.make` at the claim's options, in
micrometres: `rectangle(9mm, 70um, 0, 4.5mm)` has bounds `x ∈ [-4500, 4500]`,
`y ∈ [4465, 4535]`, and so on (the centres are the source's literal `4.5`).
The theorem `frame_shape_matches_micron_boxes` proves these bounds against
the real-plane model. -/
def frameMicronBoxes : List ZBox :=
  [{ x1 := -4500, x2 := 4500, y1 := 4465, y2 := 4535 },
   { x1 := 4465, x2 := 4535, y1 := -4500, y2 := 4500 },
   { x1 := -4535, x2 := -4465, y1 := -4500, y2 := 4500 },
   { x1 := -4500, x2 := 4500, y1 := -4535, y2 := -4465 }]

/-- Default options with only the flux bias line enabled. -/
def optsFblOnly : FluxoniumPocket.Options :=
  { FluxoniumPocket.defaultOptions with
      flux_bias_line_options :=
        { FluxoniumPocket.defaultOptions.flux_bias_line_options with make_fbl := true } }

/-- Default options with all three optional lines enabled. -/
def optsAllLines : FluxoniumPocket.Options :=
  { FluxoniumPocket.defaultOptions with
      flux_bias_line_options :=
        { FluxoniumPocket.defaultOptions.flux_bias_line_options with make_fbl := true },
      charge_line_options :=
        { FluxoniumPocket.defaultOptions.charge_line_options with make_cl := true },
      readout_line_options :=
        { FluxoniumPocket.defaultOptions.readout_line_options with make_rol := true } }

/-- Default options rotated by 180 degrees. -/
def opts180 : FluxoniumPocket.Options :=
  { FluxoniumPocket.defaultOptions with orientation_deg := 180 }

/-- Default options translated by 10 mm along x. -/
def optsShifted : FluxoniumPocket.Options :=
  { FluxoniumPocket.defaultOptions with pos_x := 10 }

/-- Default options with `l_inductance` raised from 200 nH to 400 nH and
nothing else changed. -/
def optsInd400 : FluxoniumPocket.Options :=
  { FluxoniumPocket.defaultOptions with l_inductance := 400 }

/-- C8: with `orientation = 0` and `pos_x = pos_y = 0`,
`qpin_rotate_translate` is exactly the identity on pin endpoints: the cosine
factor is exactly 1 and the sine factor exactly 0, with no perturbation. -/
theorem qpin_orientation_zero_identity (o : FluxoniumPocket.Options)
    (h1 : o.orientation_deg = 0) (h2 : o.pos_x = 0) (h3 : o.pos_y = 0)
    (x : Pt) : FluxoniumPocket.qpin_rotate_translate o x = x := by
  simp [FluxoniumPocket.qpin_rotate_translate, h1, h2, h3]

/-- Witness for C8 at the default options and the endpoint `(3, 7)`. -/
theorem qpin_orientation_zero_identity_witness :
    FluxoniumPocket.defaultOptions.orientation_deg = 0 ∧
    FluxoniumPocket.defaultOptions.pos_x = 0 ∧
    FluxoniumPocket.defaultOptions.pos_y = 0 ∧
    FluxoniumPocket.qpin_rotate_translate FluxoniumPocket.defaultOptions (3, 7) = (3, 7) :=
  ⟨rfl, rfl, rfl,
    qpin_orientation_zero_identity FluxoniumPocket.defaultOptions rfl rfl rfl (3, 7)⟩

/-- C4 counterexample: at `orientation = 180` and the endpoint `(1, 0)`,
`qpin_rotate_translate` does not compute the claimed map with
`θ = orientation * π / 180`, because the source hard-codes `3.14159` and
`cos 3.14159 > -1 = cos π`. -/
theorem qpin_not_exact_pi_conversion :
    FluxoniumPocket.qpin_rotate_translate opts180 (1, 0) ≠
      ((1 : ℝ) * Real.cos (opts180.orientation_deg * Real.pi / 180) -
          (0 : ℝ) * Real.sin (opts180.orientation_deg * Real.pi / 180) + opts180.pos_x,
       (1 : ℝ) * Real.sin (opts180.orientation_deg * Real.pi / 180) +
          (0 : ℝ) * Real.cos (opts180.orientation_deg * Real.pi / 180) + opts180.pos_y) := by
  have hlt : -1 < Real.cos 3.14159 := by
    have h0 : (3.14159 : ℝ) < Real.pi :=
      lt_trans (by norm_num) Real.pi_gt_d6
    have h2 := Real.cos_lt_cos_of_nonneg_of_le_pi
      (by norm_num : (0 : ℝ) ≤ 3.14159) (le_refl Real.pi) h0
    rwa [Real.cos_pi] at h2
  intro h
  have h1 := congrArg Prod.fst h
  have e1 : (180 : ℝ) * 3.14159 / 180 = 3.14159 := by ring
  have e2 : (180 : ℝ) * Real.pi / 180 = Real.pi := by ring
  simp only [FluxoniumPocket.qpin_rotate_translate, opts180,
    FluxoniumPocket.defaultOptions] at h1
  rw [e1, e2] at h1
  simp only [one_mul, zero_mul, sub_zero, add_zero, Real.cos_pi] at h1
  exact absurd h1 (ne_of_gt hlt)

/-- C4 amended: `qpin_rotate_translate` applies the affine map
`x' = x cos θ - y sin θ + pos_x`, `y' = x sin θ + y cos θ + pos_y` with
`θ = orientation * 3.14159 / 180` (the source's hard-coded approximation of
π), and the flux-bias pin endpoints are exactly its images of the local
points `d` and `e`. -/
theorem qpin_affine_with_hardcoded_pi (o : FluxoniumPocket.Options) (x : Pt) :
    FluxoniumPocket.qpin_rotate_translate o x =
      (x.1 * Real.cos (o.orientation_deg * 3.14159 / 180) -
          x.2 * Real.sin (o.orientation_deg * 3.14159 / 180) + o.pos_x,
       x.1 * Real.sin (o.orientation_deg * 3.14159 / 180) +
          x.2 * Real.cos (o.orientation_deg * 3.14159 / 180) + o.pos_y) ∧
    (FluxoniumPocket.fblPin o).pt1 =
      FluxoniumPocket.qpin_rotate_translate o (FluxoniumPocket.fbl_d o) ∧
    (FluxoniumPocket.fblPin o).pt2 =
      FluxoniumPocket.qpin_rotate_translate o (FluxoniumPocket.fbl_e o) :=
  ⟨rfl, rfl, rfl⟩

/-- C6: with `make_fbl = true` and the charge and readout lines disabled,
the build registers exactly one pin; it is named `Flux bias line` and its
width is the configured `flux_bias_line_options.cpw_width`. -/
theorem fbl_only_single_pin (o : FluxoniumPocket.Options)
    (h1 : o.flux_bias_line_options.make_fbl = true)
    (h2 : o.charge_line_options.make_cl = false)
    (h3 : o.readout_line_options.make_rol = false) :
    (FluxoniumPocket.make o).2 = [FluxoniumPocket.fblPin o] ∧
    (FluxoniumPocket.fblPin o).name = "Flux bias line" ∧
    (FluxoniumPocket.fblPin o).width = o.flux_bias_line_options.cpw_width := by
  refine ⟨?_, rfl, rfl⟩
  simp [FluxoniumPocket.make, h1, h2, h3]

/-- Witness for C6 at the default options with only the flux bias line on. -/
theorem fbl_only_single_pin_witness :
    optsFblOnly.flux_bias_line_options.make_fbl = true ∧
    optsFblOnly.charge_line_options.make_cl = false ∧
    optsFblOnly.readout_line_options.make_rol = false ∧
    ((FluxoniumPocket.make optsFblOnly).2 = [FluxoniumPocket.fblPin optsFblOnly] ∧
      (FluxoniumPocket.fblPin optsFblOnly).name = "Flux bias line" ∧
      (FluxoniumPocket.fblPin optsFblOnly).width =
        optsFblOnly.flux_bias_line_options.cpw_width) :=
  ⟨rfl, rfl, rfl, fbl_only_single_pin optsFblOnly rfl rfl rfl⟩

/-- C2 counterexample: a `make` pass with the flux bias line enabled
registers two `path`-category rows that share the name `path` (the trace and
its gap cut), so entry names are not unique per component per category. -/
theorem fluxonium_duplicate_path_names :
    (((FluxoniumPocket.make optsFblOnly).1.filter fun e =>
        e.category = Cat.path).map fun e => e.name) = ["path", "path"] ∧
    ¬ ((((FluxoniumPocket.make optsFblOnly).1.filter fun e =>
        e.category = Cat.path).map fun e => e.name).Nodup) := by
  constructor
  · decide
  · decide

/-- C2 amended: within any `FluxoniumPocket.make` pass the `poly` and
`junction` tables do have pairwise distinct names; only the `path` table
names collide (flux-bias and readout both register trace and gap cut as
`path`). -/
theorem fluxonium_poly_junction_names_unique (o : FluxoniumPocket.Options) :
    ((((FluxoniumPocket.make o).1.filter fun e =>
        e.category = Cat.poly).map fun e => e.name).Nodup) ∧
    ((((FluxoniumPocket.make o).1.filter fun e =>
        e.category = Cat.junction).map fun e => e.name).Nodup) := by
  cases hf : o.flux_bias_line_options.make_fbl <;>
    cases hc : o.charge_line_options.make_cl <;>
      cases hr : o.readout_line_options.make_rol <;>
        constructor <;>
          simp +decide [FluxoniumPocket.make, FluxoniumPocket.make_pocket,
            FluxoniumPocket.fblEntries, FluxoniumPocket.clEntries,
            FluxoniumPocket.rolEntries, hf, hc, hr]

/-- Membership in a modelled disc, by definition. -/
theorem mem_discSet {cx cy r : ℝ} {q : Pt} :
    q ∈ discSet cx cy r ↔ (q.1 - cx) ^ 2 + (q.2 - cy) ^ 2 ≤ r ^ 2 :=
  Iff.rfl

/-- C1: the rigid transform is not applied to every registered shape.  The
transform list of `make_pocket` (source line 231) repeats `poly_wire_top`
and omits `poly_wire_bot`, so at `pos_x = 10` the registered
`poly_wire_top` row carries the transformed shape while the registered
`poly_wire_bot` row carries the local shape, which differs from its
transform; relative geometry between the two wire halves is therefore not
preserved under placement. -/
theorem fluxonium_wire_bot_escapes_transform :
    (FluxoniumPocket.make_pocket optsShifted)[2]? =
      some { category := Cat.poly, name := "poly_wire_top",
             shape := FluxoniumPocket.pocketTransform optsShifted
               (FluxoniumPocket.poly_wire_top optsShifted) } ∧
    (FluxoniumPocket.make_pocket optsShifted)[3]? =
      some { category := Cat.poly, name := "poly_wire_bot",
             shape := FluxoniumPocket.poly_wire_bot optsShifted } ∧
    FluxoniumPocket.poly_wire_bot optsShifted ≠
      FluxoniumPocket.pocketTransform optsShifted
        (FluxoniumPocket.poly_wire_bot optsShifted) := by
  refine ⟨rfl, rfl, ?_⟩
  intro h
  have hq : ((0.0325 : ℝ), (-0.055 : ℝ)) ∈ FluxoniumPocket.mount_bot optsShifted := by
    rw [FluxoniumPocket.mount_bot, mem_shTranslate, mem_rectangleSet]
    norm_num [optsShifted, FluxoniumPocket.defaultOptions, FluxoniumPocket.L_tot]
  have hq2 : ((0.0325 : ℝ), (-0.055 : ℝ)) ∈ FluxoniumPocket.poly_wire_bot optsShifted :=
    Or.inr hq
  rw [h, FluxoniumPocket.pocketTransform,
    show optsShifted.orientation_deg = 0 from rfl, shRotate_zero,
    mem_shTranslate] at hq2
  rcases hq2 with hseg | hmount
  · rw [FluxoniumPocket.seg_bot, mem_shTranslate] at hseg
    have hsub : shRotate (-90) (FluxoniumPocket.poly_seg optsShifted) ⊆
        discSet 0 0 (optsShifted.l_fillet + optsShifted.l_width / 2) :=
      subset_trans (Set.image_subset _ (poly_seg_subset_disc optsShifted))
        (shRotate_disc_subset _ _)
    have hd := hsub hseg
    rw [mem_discSet] at hd
    norm_num [optsShifted, FluxoniumPocket.defaultOptions, FluxoniumPocket.L_tot] at hd
  · rw [FluxoniumPocket.mount_bot, mem_shTranslate, mem_rectangleSet] at hmount
    norm_num [optsShifted, FluxoniumPocket.defaultOptions, FluxoniumPocket.L_tot,
      abs_le] at hmount

/-- C5 counterexample: raising `l_inductance` from 200 nH to 400 nH (and
changing nothing else) moves the meander geometry, because `make_pocket`
places the mounts, fillet segments and inductor line string at offsets
`±(L_tot/2 + ...)` computed from `L_tot = l_inductance * l_width /
l_ind_per_square`.  The two builds' geometry differs. -/
theorem make_pocket_depends_on_l_inductance :
    FluxoniumPocket.make_pocket FluxoniumPocket.defaultOptions ≠
      FluxoniumPocket.make_pocket optsInd400 := by
  intro h
  have h2 := congrArg (fun l => l[2]?) h
  simp only [FluxoniumPocket.make_pocket, List.getElem?_cons_succ,
    List.getElem?_cons_zero, Option.some_inj] at h2
  have hs := congrArg Entry.shape h2
  simp only at hs
  rw [pocketTransform_id FluxoniumPocket.defaultOptions rfl rfl rfl,
    pocketTransform_id optsInd400 rfl rfl rfl] at hs
  have hq : ((0.0325 : ℝ), (0.055 : ℝ)) ∈
      FluxoniumPocket.poly_wire_top FluxoniumPocket.defaultOptions := by
    left
    rw [FluxoniumPocket.mount_top, mem_shTranslate, mem_rectangleSet]
    norm_num [FluxoniumPocket.defaultOptions, FluxoniumPocket.L_tot]
  rw [hs] at hq
  rcases hq with hmount | hseg
  · rw [FluxoniumPocket.mount_top, mem_shTranslate, mem_rectangleSet] at hmount
    norm_num [optsInd400, FluxoniumPocket.defaultOptions, FluxoniumPocket.L_tot,
      abs_le] at hmount
  · rw [FluxoniumPocket.seg_top, mem_shTranslate] at hseg
    have hd := poly_seg_subset_disc optsInd400 hseg
    rw [mem_discSet] at hd
    norm_num [optsInd400, FluxoniumPocket.defaultOptions, FluxoniumPocket.L_tot] at hd

/-- C5 amended: `make_pocket` geometry is derived from `L_tot`: at identity
placement the registered `inductor` junction row is the line string between
`c` and `d`, whose vertical extent is exactly
`L_tot = l_inductance * l_width / l_ind_per_square`; option sets differing
in `l_inductance` can therefore produce different geometry. -/
theorem inductor_geometry_tracks_L_tot (o : FluxoniumPocket.Options)
    (h1 : o.orientation_deg = 0) (h2 : o.pos_x = 0) (h3 : o.pos_y = 0) :
    ((FluxoniumPocket.make_pocket o)[5]?).map (fun e => e.shape) =
      some (lineStringSet [FluxoniumPocket.inductor_c o, FluxoniumPocket.inductor_d o]) ∧
    (FluxoniumPocket.inductor_c o).2 - (FluxoniumPocket.inductor_d o).2 =
      FluxoniumPocket.L_tot o := by
  constructor
  · simp only [FluxoniumPocket.make_pocket, List.getElem?_cons_succ,
      List.getElem?_cons_zero, Option.map_some]
    rw [pocketTransform_id o h1 h2 h3, FluxoniumPocket.inductor]
    rfl
  · simp only [FluxoniumPocket.inductor_c, FluxoniumPocket.inductor_d]
    ring

/-- Witness for the amended C5 statement at the default options. -/
theorem inductor_geometry_tracks_L_tot_witness :
    FluxoniumPocket.defaultOptions.orientation_deg = 0 ∧
    FluxoniumPocket.defaultOptions.pos_x = 0 ∧
    FluxoniumPocket.defaultOptions.pos_y = 0 ∧
    (((FluxoniumPocket.make_pocket FluxoniumPocket.defaultOptions)[5]?).map
        (fun e => e.shape) =
      some (lineStringSet [FluxoniumPocket.inductor_c FluxoniumPocket.defaultOptions,
        FluxoniumPocket.inductor_d FluxoniumPocket.defaultOptions]) ∧
      (FluxoniumPocket.inductor_c FluxoniumPocket.defaultOptions).2 -
          (FluxoniumPocket.inductor_d FluxoniumPocket.defaultOptions).2 =
        FluxoniumPocket.L_tot FluxoniumPocket.defaultOptions) :=
  ⟨rfl, rfl, rfl,
    inductor_geometry_tracks_L_tot FluxoniumPocket.defaultOptions rfl rfl rfl⟩

/-- C7: building `Markers` with its default options registers exactly the
union-of-4-rectangles `markers` poly and the subtracted `markers_pk` poly;
the marker centres sit at `(±marker_sep, ±marker_sep)` relative to
`(pos_x/2, pos_y/2) = (0, 0)`, i.e. at `(±0.04, ±0.04)` mm, and the pocket
is centred there as well. -/
theorem markers_default_build :
    ((Markers.make Markers.defaultOptions).map fun e => (e.category, e.name, e.subtract)) =
      [(Cat.poly, "markers", false), (Cat.poly, "markers_pk", true)] ∧
    ((Markers.make Markers.defaultOptions)[0]?).map (fun e => e.shape) =
      some (rectangleSet 0.02 0.02 0.04 0.04 ∪ rectangleSet 0.02 0.02 (-0.04) 0.04 ∪
        rectangleSet 0.02 0.02 0.04 (-0.04) ∪ rectangleSet 0.02 0.02 (-0.04) (-0.04)) ∧
    ((Markers.make Markers.defaultOptions)[1]?).map (fun e => e.shape) =
      some (rectangleSet 0.2 0.2 0 0) := by
  refine ⟨rfl, ?_, ?_⟩
  · simp only [Markers.make, List.getElem?_cons_zero, Option.map_some]
    rw [show Markers.defaultOptions.orientation_deg = 0 from rfl, shRotate_zero,
      show Markers.defaultOptions.pos_x / 2 = 0 by
        norm_num [Markers.defaultOptions],
      show Markers.defaultOptions.pos_y / 2 = 0 by
        norm_num [Markers.defaultOptions],
      shTranslate_zero]
    simp only [Markers.markers_shape, Markers.marker_1, Markers.marker_2,
      Markers.marker_3, Markers.marker_4]
    norm_num [Markers.defaultOptions]
  · simp only [Markers.make, List.getElem?_cons_succ, List.getElem?_cons_zero,
      Option.map_some]
    rw [show Markers.defaultOptions.orientation_deg = 0 from rfl, shRotate_zero,
      show Markers.defaultOptions.pos_x / 2 = 0 by
        norm_num [Markers.defaultOptions],
      show Markers.defaultOptions.pos_y / 2 = 0 by
        norm_num [Markers.defaultOptions],
      shTranslate_zero]
    simp only [Markers.markers_pk_shape]
    norm_num [Markers.defaultOptions]

/-- Membership of a literal coordinate pair in a modelled rectangle. -/
theorem mem_rect_pair {w h cx cy x y : ℝ} :
    (x, y) ∈ rectangleSet w h cx cy ↔ |x - cx| ≤ w / 2 ∧ |y - cy| ≤ h / 2 :=
  Iff.rfl

/-- C9: for every option set, each border bar of `Frame.make` is centrally
symmetric about the hard-coded centre (`(0, 4.5)`, `(4.5, 0)`, `(-4.5, 0)`,
`(0, -4.5)`), independently of `frame_w` and `frame_h`; consequently the
device corner `(frame_w/2, frame_h/2)` lies on both the top bar and the bar
at `x = 4.5` exactly when `frame_w` and `frame_h` are within `f_width` of
the hard-coded 9 mm device size. -/
theorem frame_bar_centers_fixed (o : Frame.Options)
    (hw : 0 ≤ o.frame_w) (hh : 0 ≤ o.frame_h) :
    (∀ x y : ℝ, (x, y) ∈ Frame.line_top o ↔ (-x, 9 - y) ∈ Frame.line_top o) ∧
    (∀ x y : ℝ, (x, y) ∈ Frame.line_bottom o ↔ (-x, -9 - y) ∈ Frame.line_bottom o) ∧
    (∀ x y : ℝ, (x, y) ∈ Frame.line_left o ↔ (9 - x, -y) ∈ Frame.line_left o) ∧
    (∀ x y : ℝ, (x, y) ∈ Frame.line_right o ↔ (-9 - x, -y) ∈ Frame.line_right o) ∧
    (((o.frame_w / 2, o.frame_h / 2) ∈ Frame.line_top o ∧
        (o.frame_w / 2, o.frame_h / 2) ∈ Frame.line_left o) ↔
      (|o.frame_h - 9| ≤ o.f_width ∧ |o.frame_w - 9| ≤ o.f_width)) := by
  refine ⟨fun x y => ?_, fun x y => ?_, fun x y => ?_, fun x y => ?_, ?_⟩
  · have e1 : |(-x) - (0 : ℝ)| = |x - 0| := by
      rw [sub_zero, sub_zero, abs_neg]
    have e2 : |9 - y - (4.5 : ℝ)| = |y - 4.5| := by
      rw [show (9 : ℝ) - y - 4.5 = -(y - 4.5) by ring, abs_neg]
    rw [Frame.line_top, mem_rect_pair, mem_rect_pair, e1, e2]
  · have e1 : |(-x) - (0 : ℝ)| = |x - 0| := by
      rw [sub_zero, sub_zero, abs_neg]
    have e2 : |(-9) - y - (-4.5 : ℝ)| = |y - (-4.5)| := by
      rw [show (-9 : ℝ) - y - (-4.5) = -(y - (-4.5)) by ring, abs_neg]
    rw [Frame.line_bottom, mem_rect_pair, mem_rect_pair, e1, e2]
  · have e1 : |9 - x - (4.5 : ℝ)| = |x - 4.5| := by
      rw [show (9 : ℝ) - x - 4.5 = -(x - 4.5) by ring, abs_neg]
    have e2 : |(-y) - (0 : ℝ)| = |y - 0| := by
      rw [sub_zero, sub_zero, abs_neg]
    rw [Frame.line_left, mem_rect_pair, mem_rect_pair, e1, e2]
  · have e1 : |(-9) - x - (-4.5 : ℝ)| = |x - (-4.5)| := by
      rw [show (-9 : ℝ) - x - (-4.5) = -(x - (-4.5)) by ring, abs_neg]
    have e2 : |(-y) - (0 : ℝ)| = |y - 0| := by
      rw [sub_zero, sub_zero, abs_neg]
    rw [Frame.line_right, mem_rect_pair, mem_rect_pair, e1, e2]
  · simp only [Frame.line_top, Frame.line_left, mem_rect_pair, abs_le]
    constructor
    · rintro ⟨⟨⟨a1, a2⟩, a3, a4⟩, ⟨b1, b2⟩, b3, b4⟩
      exact ⟨⟨by linarith, by linarith⟩, by linarith, by linarith⟩
    · rintro ⟨⟨c1, c2⟩, d1, d2⟩
      refine ⟨⟨⟨?_, ?_⟩, ?_, ?_⟩, ⟨?_, ?_⟩, ?_, ?_⟩ <;> linarith

/-- Witness for C9 at the claim's 9 mm / 9 mm / 70 um options. -/
theorem frame_bar_centers_fixed_witness :
    (0 : ℝ) ≤ Frame.claimOptions.frame_w ∧
    (0 : ℝ) ≤ Frame.claimOptions.frame_h ∧
    ((∀ x y : ℝ, (x, y) ∈ Frame.line_top Frame.claimOptions ↔
        (-x, 9 - y) ∈ Frame.line_top Frame.claimOptions) ∧
      (∀ x y : ℝ, (x, y) ∈ Frame.line_bottom Frame.claimOptions ↔
        (-x, -9 - y) ∈ Frame.line_bottom Frame.claimOptions) ∧
      (∀ x y : ℝ, (x, y) ∈ Frame.line_left Frame.claimOptions ↔
        (9 - x, -y) ∈ Frame.line_left Frame.claimOptions) ∧
      (∀ x y : ℝ, (x, y) ∈ Frame.line_right Frame.claimOptions ↔
        (-9 - x, -y) ∈ Frame.line_right Frame.claimOptions) ∧
      (((Frame.claimOptions.frame_w / 2, Frame.claimOptions.frame_h / 2) ∈
            Frame.line_top Frame.claimOptions ∧
          (Frame.claimOptions.frame_w / 2, Frame.claimOptions.frame_h / 2) ∈
            Frame.line_left Frame.claimOptions) ↔
        (|Frame.claimOptions.frame_h - 9| ≤ Frame.claimOptions.f_width ∧
          |Frame.claimOptions.frame_w - 9| ≤ Frame.claimOptions.f_width))) :=
  ⟨by norm_num [Frame.claimOptions], by norm_num [Frame.claimOptions],
    frame_bar_centers_fixed Frame.claimOptions
      (by norm_num [Frame.claimOptions]) (by norm_num [Frame.claimOptions])⟩

/-- The real-plane `frame` shape at the claim's options coincides with the
four integer micrometre boxes (coordinates scaled by 1000 um/mm). -/
theorem frame_shape_matches_micron_boxes :
    ∀ x y : ℝ, (x, y) ∈ Frame.frame_shape Frame.claimOptions ↔
      ∃ b ∈ frameMicronBoxes, ((b.x1 : ℝ) ≤ 1000 * x ∧ 1000 * x ≤ (b.x2 : ℝ) ∧
        (b.y1 : ℝ) ≤ 1000 * y ∧ 1000 * y ≤ (b.y2 : ℝ)) := by
  intro x y
  simp only [Frame.frame_shape, Set.mem_union, Frame.line_top, Frame.line_left,
    Frame.line_right, Frame.line_bottom, mem_rect_pair, Frame.claimOptions,
    frameMicronBoxes, List.mem_cons, List.not_mem_nil, or_false, abs_le,
    exists_eq_or_imp, exists_eq_left]
  push_cast
  constructor
  · rintro (((h | h) | h) | h)
    · exact Or.inl ⟨by linarith [h.1.1], by linarith [h.1.2],
        by linarith [h.2.1], by linarith [h.2.2]⟩
    · exact Or.inr (Or.inl ⟨by linarith [h.1.1], by linarith [h.1.2],
        by linarith [h.2.1], by linarith [h.2.2]⟩)
    · exact Or.inr (Or.inr (Or.inl ⟨by linarith [h.1.1], by linarith [h.1.2],
        by linarith [h.2.1], by linarith [h.2.2]⟩))
    · exact Or.inr (Or.inr (Or.inr ⟨by linarith [h.1.1], by linarith [h.1.2],
        by linarith [h.2.1], by linarith [h.2.2]⟩))
  · rintro (h | h | h | h)
    · exact Or.inl (Or.inl (Or.inl ⟨⟨by linarith [h.1], by linarith [h.2.1]⟩,
        by linarith [h.2.2.1], by linarith [h.2.2.2]⟩))
    · exact Or.inl (Or.inl (Or.inr ⟨⟨by linarith [h.1], by linarith [h.2.1]⟩,
        by linarith [h.2.2.1], by linarith [h.2.2.2]⟩))
    · exact Or.inl (Or.inr ⟨⟨by linarith [h.1], by linarith [h.2.1]⟩,
        by linarith [h.2.2.1], by linarith [h.2.2.2]⟩)
    · exact Or.inr ⟨⟨by linarith [h.1], by linarith [h.2.1]⟩,
        by linarith [h.2.2.1], by linarith [h.2.2.2]⟩

/-- C3 counterexample: the `frame` shape is exactly the union of the four
micrometre boxes, but the union's area (in um^2) is not the claimed
`9mm*70um*2 + 9mm*70um*2 - 4*(70um)^2`: the four corner overlaps measure
`(f_width/2)^2` each, not `f_width^2`. -/
theorem frame_area_claim_value_wrong :
    (∀ x y : ℝ, (x, y) ∈ Frame.frame_shape Frame.claimOptions ↔
      ∃ b ∈ frameMicronBoxes, ((b.x1 : ℝ) ≤ 1000 * x ∧ 1000 * x ≤ (b.x2 : ℝ) ∧
        (b.y1 : ℝ) ≤ 1000 * y ∧ 1000 * y ≤ (b.y2 : ℝ))) ∧
    zUnionArea frameMicronBoxes ≠ 9000 * 70 * 2 + 9000 * 70 * 2 - 4 * 70 ^ 2 :=
  ⟨frame_shape_matches_micron_boxes, by decide⟩

/-- C3 amended: building `Frame` at the claim's options registers exactly one
`poly` row named `frame`, its shape is the union of the four border
rectangles, and that union's area equals
`9mm*70um*2 + 9mm*70um*2 - 4*(70um/2)^2` (in um^2: `2515100`). -/
theorem frame_single_entry_and_area :
    ((Frame.make Frame.claimOptions).map fun e => (e.category, e.name)) =
      [(Cat.poly, "frame")] ∧
    ((Frame.make Frame.claimOptions)[0]?).map (fun e => e.shape) =
      some (Frame.frame_shape Frame.claimOptions) ∧
    (∀ x y : ℝ, (x, y) ∈ Frame.frame_shape Frame.claimOptions ↔
      ∃ b ∈ frameMicronBoxes, ((b.x1 : ℝ) ≤ 1000 * x ∧ 1000 * x ≤ (b.x2 : ℝ) ∧
        (b.y1 : ℝ) ≤ 1000 * y ∧ 1000 * y ≤ (b.y2 : ℝ))) ∧
    zUnionArea frameMicronBoxes = 9000 * 70 * 2 + 9000 * 70 * 2 - 4 * 35 ^ 2 := by
  refine ⟨rfl, ?_, frame_shape_matches_micron_boxes, by decide⟩
  simp only [Frame.make, List.getElem?_cons_zero, Option.map_some]
  rw [show Frame.claimOptions.orientation_deg = 0 from rfl, shRotate_zero,
    show Frame.claimOptions.pos_x = 0 from rfl,
    show Frame.claimOptions.pos_y = 0 from rfl, shTranslate_zero]
  rfl

/-- One-step unfolding of the `make_jj_array` loop at zero iterations. -/
theorem jjEntriesFrom_zero (o : JunctionArray.Options) (idx : ℕ) (yoff : ℝ) :
    JunctionArray.jjEntriesFrom o 0 idx yoff = [] := rfl

/-- One-step unfolding of the `make_jj_array` loop body. -/
theorem jjEntriesFrom_succ (o : JunctionArray.Options) (k idx : ℕ) (yoff : ℝ) :
    JunctionArray.jjEntriesFrom o (k + 1) idx yoff =
      JunctionArray.padEntry o idx yoff ::
        ((if idx ≠ o.array_unit.n_junction then [JunctionArray.juncEntry o idx yoff]
          else []) ++
          JunctionArray.jjEntriesFrom o k (idx + 1)
            (yoff + JunctionArray.yIncrement o)) := rfl

/-- Names of the `poly` rows emitted by the `make_jj_array` loop: one
`jj_pad_{idx}` per iteration. -/
theorem jjEntriesFrom_poly_names (o : JunctionArray.Options) :
    ∀ (count idx : ℕ) (yoff : ℝ),
      (((JunctionArray.jjEntriesFrom o count idx yoff).filter fun e =>
          e.category = Cat.poly).map fun e => e.name) =
        (List.range' idx count).map fun i => "jj_pad_" ++ toString i := by
  intro count
  induction count with
  | zero => intro idx yoff; rfl
  | succ k ih =>
    intro idx yoff
    by_cases hidx : idx = o.array_unit.n_junction <;>
      simp [JunctionArray.jjEntriesFrom, hidx, JunctionArray.padEntry,
        JunctionArray.juncEntry, ih, List.range'_succ]

/-- Name, width and GDS cell name of the `junction` rows emitted by the
`make_jj_array` loop starting at index `idx`: one `rect_jj_{i}` per
iteration except for the final index `n_junction`. -/
theorem jjEntriesFrom_junction_rows (o : JunctionArray.Options) :
    ∀ (count idx : ℕ) (yoff : ℝ), idx + count = o.array_unit.n_junction + 1 →
      (((JunctionArray.jjEntriesFrom o count idx yoff).filter fun e =>
          e.category = Cat.junction).map fun e =>
            (e.name, e.width, e.gds_cell_name)) =
        (List.range' idx (count - 1)).map fun i =>
          ("rect_jj_" ++ toString i, some o.array_unit.junction_thickness,
            some ("FakeJunction_0" ++ toString (i + 1))) := by
  intro count
  induction count with
  | zero => intro idx yoff h; rfl
  | succ k ih =>
    intro idx yoff h
    by_cases hidx : idx = o.array_unit.n_junction
    · have hk : k = 0 := by omega
      subst hk
      rw [jjEntriesFrom_succ]
      simp [hidx, JunctionArray.padEntry, jjEntriesFrom_zero]
    · obtain ⟨m, rfl⟩ : ∃ m, k = m + 1 := ⟨k - 1, by omega⟩
      have hrec := ih (idx + 1) (yoff + JunctionArray.yIncrement o) (by omega)
      rw [jjEntriesFrom_succ]
      simp only [List.filter_cons, List.filter_append, List.map_append]
      simp [JunctionArray.padEntry, JunctionArray.juncEntry, hidx, hrec,
        List.range'_succ]

/-- C10: for every option set with `n = n_junction`, `make_jj_array`
registers exactly `n + 1` poly rows named `jj_pad_0 ... jj_pad_n`, and the
full `make` registers exactly `n` junction rows named
`rect_jj_0 ... rect_jj_{n-1}`, each with width `junction_thickness` and GDS
cell name `FakeJunction_0{i+1}` (the ground buffer adds no junction row). -/
theorem junction_array_entry_rows (o : JunctionArray.Options) :
    (((JunctionArray.make_jj_array o).filter fun e => e.category = Cat.poly).map
        fun e => e.name) =
      (List.range (o.array_unit.n_junction + 1)).map
        (fun i => "jj_pad_" ++ toString i) ∧
    ((JunctionArray.make_jj_array o).filter fun e => e.category = Cat.poly).length =
      o.array_unit.n_junction + 1 ∧
    (((JunctionArray.make o).filter fun e => e.category = Cat.junction).map
        fun e => (e.name, e.width, e.gds_cell_name)) =
      (List.range o.array_unit.n_junction).map (fun i =>
        ("rect_jj_" ++ toString i, some o.array_unit.junction_thickness,
          some ("FakeJunction_0" ++ toString (i + 1)))) ∧
    ((JunctionArray.make o).filter fun e => e.category = Cat.junction).length =
      o.array_unit.n_junction := by
  have hp := jjEntriesFrom_poly_names o (o.array_unit.n_junction + 1) 0 0
  have hj := jjEntriesFrom_junction_rows o (o.array_unit.n_junction + 1) 0 0
    (by omega)
  have hjj : (((JunctionArray.make o).filter fun e =>
      e.category = Cat.junction).map fun e => (e.name, e.width, e.gds_cell_name)) =
      (List.range o.array_unit.n_junction).map (fun i =>
        ("rect_jj_" ++ toString i, some o.array_unit.junction_thickness,
          some ("FakeJunction_0" ++ toString (i + 1)))) := by
    rw [JunctionArray.make, List.filter_append,
      show (JunctionArray.make_buffer_ground o).filter
        (fun e => e.category = Cat.junction) = [] from rfl,
      List.append_nil, JunctionArray.make_jj_array, List.range_eq_range']
    simpa using hj
  have hpp : (((JunctionArray.make_jj_array o).filter fun e =>
      e.category = Cat.poly).map fun e => e.name) =
      (List.range (o.array_unit.n_junction + 1)).map
        (fun i => "jj_pad_" ++ toString i) := by
    rw [JunctionArray.make_jj_array, List.range_eq_range']
    exact hp
  refine ⟨hpp, ?_, hjj, ?_⟩
  · have hl := congrArg List.length hpp
    simpa using hl
  · have hl := congrArg List.length hjj
    simpa using hl
